import Mathlib

/-!
Shallow embedding of the CSV bulk-import parser of
`src/components/BulkUploadDialog.tsx` (function `parseCSV`) together with the
record types of `src/types.ts` (`Alternative`, `CompanyFormData`).

JavaScript strings are modelled as `List Char`.  The JavaScript string
primitives used by the source (`split` with a one-character separator,
`trim`, `toLowerCase`, truthiness `||` defaulting, and `values[i] || ''`
indexing) are embedded below as structurally recursive functions.
`trim` is modelled with `Char.isWhitespace` (space, tab, CR, LF) and
`toLowerCase` with the ASCII `Char.toLower`; the inputs appearing in the
specification use only ASCII, where both models agree with JavaScript.
-/

namespace BoycottCSV

/-- A JavaScript string, modelled as its list of characters. -/
abbrev Str := List Char

/-- Coerce a Lean string literal to the `List Char` model. -/
def str (s : String) : Str := s.data

/-- JavaScript `s.split(sep)` for a one-character separator: keeps empty
segments and always returns at least one segment (`"".split(x) = [""]`). -/
def jsSplit (sep : Char) : Str → List Str
  | [] => [[]]
  | c :: cs =>
    if c = sep then [] :: jsSplit sep cs
    else
      match jsSplit sep cs with
      | [] => [[c]]
      | t :: ts => (c :: t) :: ts

/-- JavaScript `s.trim()`: strip whitespace from both ends. -/
def jsTrim (s : Str) : Str :=
  ((s.dropWhile Char.isWhitespace).reverse.dropWhile Char.isWhitespace).reverse

/-- JavaScript `s.toLowerCase()` (ASCII fragment). -/
def jsLower (s : Str) : Str := s.map Char.toLower

/-- JavaScript `a || b` on strings: the empty string is falsy. -/
def jsOr (a b : Str) : Str := if a = [] then b else a

/-- JavaScript `values[index] || ''`: out-of-range indexing yields
`undefined`, which `|| ''` turns into the empty string (an in-range empty
string is falsy and also yields the empty string). -/
def cellValue (values : List Str) (index : Nat) : Str := values.getD index []

/-- `Alternative` from `src/types.ts`: one alternative-company triple. -/
structure Alternative where
  name : Str
  countryCode : Str
  description : Str
deriving DecidableEq, Repr

/-- `CompanyFormData` from `src/types.ts`: one parsed candidate record. -/
structure CompanyFormData where
  name : Str
  boycott : Bool
  reason : Str
  country : Str
  alternatives : List Alternative
  barcodes : List Str
  proofUrls : List Str
deriving DecidableEq, Repr

/-- The record every row starts from (`const company: CompanyFormData = {...}`
in `parseCSV`). -/
def initialCompany : CompanyFormData :=
  { name := []
  , boycott := false
  , reason := []
  , country := str "GLOBAL"
  , alternatives := []
  , barcodes := []
  , proofUrls := [] }

/-- One alternatives sub-field:
`alt.trim().split(':')` then
`{name: parts[0]?.trim() || '', countryCode: parts[1]?.trim() || 'GLOBAL',
description: parts[2]?.trim() || ''}`. -/
def parseAlt (alt : Str) : Alternative :=
  let parts := jsSplit ':' (jsTrim alt)
  { name := jsTrim (parts.getD 0 [])
  , countryCode := jsOr (jsTrim (parts.getD 1 [])) (str "GLOBAL")
  , description := jsTrim (parts.getD 2 []) }

/-- The alternatives field decoder:
`value.split(';').map(parseAlt).filter(alt => alt.name)`. -/
def parseAlternatives (v : Str) : List Alternative :=
  ((jsSplit ';' v).map parseAlt).filter (fun a => !a.name.isEmpty)

/-- The barcodes / proofurls decoder:
`value.split(';').map(b => b.trim()).filter(b => b)`. -/
def splitTokens (v : Str) : List Str :=
  ((jsSplit ';' v).map jsTrim).filter (fun t => !t.isEmpty)

/-- One iteration of `headers.forEach((header, index) => {...})`: the
`switch (header)` that assigns one field of the record. -/
def applyHeader (values : List Str) (company : CompanyFormData)
    (header : Str) (index : Nat) : CompanyFormData :=
  if header = str "name" then { company with name := cellValue values index }
  else if header = str "boycott" then
    { company with
        boycott := decide (jsLower (cellValue values index) = str "true" ∨
          jsLower (cellValue values index) = str "yes") }
  else if header = str "reason" then { company with reason := cellValue values index }
  else if header = str "country" then
    { company with country := jsOr (cellValue values index) (str "GLOBAL") }
  else if header = str "alternatives" then
    if cellValue values index = [] then company
    else { company with alternatives := parseAlternatives (cellValue values index) }
  else if header = str "barcodes" then
    { company with
        barcodes :=
          if cellValue values index = [] then [] else splitTokens (cellValue values index) }
  else if header = str "proofurls" ∨ header = str "proof_urls" then
    { company with
        proofUrls :=
          if cellValue values index = [] then [] else splitTokens (cellValue values index) }
  else company

/-- `headers.forEach((header, index) => ...)`, carrying the running index. -/
def applyHeaders (values : List Str) : Nat → List Str → CompanyFormData → CompanyFormData
  | _, [], c => c
  | i, h :: hs, c => applyHeaders values (i + 1) hs (applyHeader values c h i)

/-- Decoding one data line against the header list:
`const values = lines[i].split(',').map(v => v.trim())` followed by the
`headers.forEach` loop starting from `initialCompany`. -/
def decodeRow (headers : List Str) (line : Str) : CompanyFormData :=
  let values := (jsSplit ',' line).map jsTrim
  applyHeaders values 0 headers initialCompany

/-- `const lines = csvData.trim().split('\n')`. -/
def linesOf (csvData : Str) : List Str := jsSplit '\n' (jsTrim csvData)

/-- `const headers = lines[0].split(',').map(h => h.trim().toLowerCase())`.
`jsSplit` never returns an empty list, so `lines[0]` always exists; the
`headD []` fallback is therefore never taken. -/
def headersOf (csvData : Str) : List Str :=
  (jsSplit ',' ((linesOf csvData).headD [])).map (fun h => jsLower (jsTrim h))

/-- The `for (let i = 1; i < lines.length; i++)` loop body over the data
lines: decode each line and push the record only when
`company.name && company.reason`. -/
def parseRows (headers : List Str) : List Str → List CompanyFormData
  | [] => []
  | line :: rest =>
    if (decodeRow headers line).name ≠ [] ∧ (decodeRow headers line).reason ≠ [] then
      decodeRow headers line :: parseRows headers rest
    else parseRows headers rest

/-- `parseCSV` of `src/components/BulkUploadDialog.tsx`. -/
def parseCSV (csvData : Str) : List CompanyFormData :=
  parseRows (headersOf csvData) ((linesOf csvData).drop 1)

/-- Instrumented variant of the same loop, additionally recording the loop
index `i` (the 1-indexed source line number) of every emitted record.  The
parser itself discards this index; the instrumentation only makes the
source row of each emitted record available to the theorems. -/
def rowsAux (headers : List Str) : Nat → List Str → List (Nat × CompanyFormData)
  | _, [] => []
  | i, line :: rest =>
    if (decodeRow headers line).name ≠ [] ∧ (decodeRow headers line).reason ≠ [] then
      (i, decodeRow headers line) :: rowsAux headers (i + 1) rest
    else rowsAux headers (i + 1) rest

/-- `parseCSV`, with each emitted record paired with its source line index. -/
def parseCSVRows (csvData : Str) : List (Nat × CompanyFormData) :=
  rowsAux (headersOf csvData) 1 ((linesOf csvData).drop 1)

/-- The CSV text of testable property 1 of the specification: the standard
header line and the single data row
`Sample Co,true,Environmental concerns,IN,"Alt A:IN:desc",111111111111,https://x.test/a`
(the alternatives field is surrounded by literal double quotes). -/
def sampleCSV : Str :=
  str "name,boycott,reason,country,alternatives,barcodes,proofurls\nSample Co,true,Environmental concerns,IN,\"Alt A:IN:desc\",111111111111,https://x.test/a"

/-- The record the specification claims `parse` returns on `sampleCSV`:
quote characters stripped from the alternatives triple. -/
def sampleClaimedRecord : CompanyFormData :=
  { name := str "Sample Co"
  , boycott := true
  , reason := str "Environmental concerns"
  , country := str "IN"
  , alternatives := [{ name := str "Alt A", countryCode := str "IN", description := str "desc" }]
  , barcodes := [str "111111111111"]
  , proofUrls := [str "https://x.test/a"] }

/-- The record `parseCSV` actually returns on `sampleCSV`: the parser has no
quoted-field handling, so the surrounding double quotes of the alternatives
field stay attached to the first and last colon-parts. -/
def sampleActualRecord : CompanyFormData :=
  { name := str "Sample Co"
  , boycott := true
  , reason := str "Environmental concerns"
  , country := str "IN"
  , alternatives :=
      [{ name := str "\"Alt A", countryCode := str "IN", description := str "desc\"" }]
  , barcodes := [str "111111111111"]
  , proofUrls := [str "https://x.test/a"] }

/-- The record decoded from the data line `A,B` under the header line
`name,reason`: name `A`, reason `B`, all other fields at their defaults. -/
def recordAB : CompanyFormData :=
  { name := str "A"
  , boycott := false
  , reason := str "B"
  , country := str "GLOBAL"
  , alternatives := []
  , barcodes := []
  , proofUrls := [] }

/-- Claim C1, counterexample: on the specified CSV text, `parseCSV` does
return exactly one record, but the record is not the one the claim states:
its alternatives triple keeps the literal double-quote characters, so the
output differs from the claimed singleton. -/
theorem parse_sample_quoted_counterexample :
    (parseCSV sampleCSV).length = 1 ∧ parseCSV sampleCSV ≠ [sampleClaimedRecord] := by
  constructor
  · decide
  · decide

/-- Claim C1, amended: on the specified CSV text, `parseCSV` returns exactly
one record with name `Sample Co`, boycott `true`, country `IN`, barcodes
`["111111111111"]`, proofUrls `["https://x.test/a"]`, and alternatives equal
to the one-element sequence whose triple keeps the surrounding quote
characters of the source field: name `"Alt A` (leading double quote),
countryCode `IN`, description `desc"` (trailing double quote). -/
theorem parse_sample_quoted_row : parseCSV sampleCSV = [sampleActualRecord] := by
  decide

/-- Claim C4: `parseCSV` on the empty string returns the empty sequence, and
more generally, whenever the trimmed input splits into fewer than two
newline-separated lines (header only or empty), the result is the empty
sequence; being a total function, it raises nothing. -/
theorem parse_degenerate_input :
    parseCSV (str "") = [] ∧ ∀ s : Str, (linesOf s).length < 2 → parseCSV s = [] := by
  constructor
  · decide
  · intro s h
    have hdrop : (linesOf s).drop 1 = [] := by
      apply List.drop_eq_nil_of_le
      omega
    unfold parseCSV
    rw [hdrop]
    rfl

/-- Witness for claim C4 at the header-only input `name,boycott,reason\n`. -/
theorem parse_degenerate_input_witness :
    parseCSV (str "name,boycott,reason\n") = [] :=
  parse_degenerate_input.2 (str "name,boycott,reason\n") (by decide)

/-- Claim C8: `parseCSV` is deterministic — it is a pure function of the
input text, so two invocations on equal texts return equal output
sequences. -/
theorem parse_deterministic : ∀ s t : Str, s = t → parseCSV s = parseCSV t := by
  intro s t h
  rw [h]

/-- Witness for claim C8 at a concrete input. -/
theorem parse_deterministic_witness :
    parseCSV (str "name,reason\nA,B") = parseCSV (str "name,reason\nA,B") :=
  parse_deterministic (str "name,reason\nA,B") (str "name,reason\nA,B") rfl

lemma applyHeader_boycott_eq (values : List Str) (c : CompanyFormData) (i : Nat) :
    (applyHeader values c (str "boycott") i).boycott =
      decide (jsLower (cellValue values i) = str "true" ∨
        jsLower (cellValue values i) = str "yes") := rfl

lemma applyHeader_barcodes_eq (values : List Str) (c : CompanyFormData) (i : Nat) :
    (applyHeader values c (str "barcodes") i).barcodes =
      if cellValue values i = [] then [] else splitTokens (cellValue values i) := rfl

lemma applyHeader_proofurls_eq (values : List Str) (c : CompanyFormData) (i : Nat) :
    (applyHeader values c (str "proofurls") i).proofUrls =
      if cellValue values i = [] then [] else splitTokens (cellValue values i) := rfl

lemma applyHeader_alternatives_eq (values : List Str) (c : CompanyFormData) (i : Nat) :
    (applyHeader values c (str "alternatives") i).alternatives =
      if cellValue values i = [] then c.alternatives
      else parseAlternatives (cellValue values i) := by
  show (if cellValue values i = [] then c
        else { c with alternatives := parseAlternatives (cellValue values i) }).alternatives =
      if cellValue values i = [] then c.alternatives
      else parseAlternatives (cellValue values i)
  by_cases hv : cellValue values i = []
  · rw [if_pos hv, if_pos hv]
  · rw [if_neg hv, if_neg hv]

lemma applyHeader_preserves_boycott (values : List Str) (c : CompanyFormData)
    (h : Str) (i : Nat) (hne : h ≠ str "boycott") :
    (applyHeader values c h i).boycott = c.boycott := by
  unfold applyHeader
  split_ifs <;> rfl

lemma applyHeaders_preserves_boycott (values : List Str) :
    ∀ (hs : List Str) (i : Nat) (c : CompanyFormData), str "boycott" ∉ hs →
      (applyHeaders values i hs c).boycott = c.boycott := by
  intro hs
  induction hs with
  | nil => intro i c _; rfl
  | cons h t ih =>
    intro i c hmem
    have h1 : h ≠ str "boycott" := by
      intro he
      exact hmem (he ▸ List.mem_cons_self h t)
    have h2 : str "boycott" ∉ t := fun hm => hmem (List.mem_cons_of_mem _ hm)
    show (applyHeaders values (i + 1) t (applyHeader values c h i)).boycott = c.boycott
    rw [ih (i + 1) _ h2, applyHeader_preserves_boycott values c h i h1]

lemma jsSplit_ne_nil (sep : Char) (s : Str) : jsSplit sep s ≠ [] := by
  cases s with
  | nil => simp [jsSplit]
  | cons c cs =>
    unfold jsSplit
    by_cases hc : c = sep
    · rw [if_pos hc]
      exact List.cons_ne_nil _ _
    · rw [if_neg hc]
      cases h : jsSplit sep cs with
      | nil => exact List.cons_ne_nil _ _
      | cons t ts => exact List.cons_ne_nil _ _

lemma parseRows_length_le (hs : List Str) :
    ∀ l : List Str, (parseRows hs l).length ≤ l.length := by
  intro l
  induction l with
  | nil => exact Nat.le_refl 0
  | cons a t ih =>
    unfold parseRows
    by_cases hp : (decodeRow hs a).name ≠ [] ∧ (decodeRow hs a).reason ≠ []
    · rw [if_pos hp]
      exact Nat.succ_le_succ ih
    · rw [if_neg hp]
      exact Nat.le_succ_of_le ih

lemma parseRows_mem_required (hs : List Str) :
    ∀ (l : List Str) (c : CompanyFormData), c ∈ parseRows hs l →
      c.name ≠ [] ∧ c.reason ≠ [] := by
  intro l
  induction l with
  | nil => intro c hc; exact absurd hc (List.not_mem_nil c)
  | cons a t ih =>
    intro c hc
    unfold parseRows at hc
    by_cases hp : (decodeRow hs a).name ≠ [] ∧ (decodeRow hs a).reason ≠ []
    · rw [if_pos hp] at hc
      rcases List.mem_cons.mp hc with he | hm
      · rw [he]; exact hp
      · exact ih c hm
    · rw [if_neg hp] at hc
      exact ih c hc

lemma getD_take_eq (n : Nat) :
    ∀ (i : Nat) (l : List Str), i < n → (l.take n).getD i [] = l.getD i [] := by
  induction n with
  | zero => intro i l hi; omega
  | succ n ih =>
    intro i l hi
    cases l with
    | nil => simp
    | cons a t =>
      cases i with
      | zero => rfl
      | succ j =>
        show (t.take n).getD j [] = t.getD j []
        exact ih j t (by omega)

lemma parseRows_eq_rowsAux (hs : List Str) :
    ∀ (l : List Str) (i : Nat), parseRows hs l = (rowsAux hs i l).map Prod.snd := by
  intro l
  induction l with
  | nil => intro i; rfl
  | cons a t ih =>
    intro i
    unfold parseRows rowsAux
    by_cases hp : (decodeRow hs a).name ≠ [] ∧ (decodeRow hs a).reason ≠ []
    · rw [if_pos hp, if_pos hp, List.map_cons, ih (i + 1)]
    · rw [if_neg hp, if_neg hp, ih (i + 1)]

lemma rowsAux_mem_ge (hs : List Str) :
    ∀ (l : List Str) (i j : Nat) (c : CompanyFormData),
      (j, c) ∈ rowsAux hs i l → i ≤ j := by
  intro l
  induction l with
  | nil => intro i j c hc; exact absurd hc (List.not_mem_nil _)
  | cons a t ih =>
    intro i j c hc
    unfold rowsAux at hc
    by_cases hp : (decodeRow hs a).name ≠ [] ∧ (decodeRow hs a).reason ≠ []
    · rw [if_pos hp] at hc
      rcases List.mem_cons.mp hc with he | hm
      · have : j = i := congrArg Prod.fst he
        omega
      · have := ih (i + 1) j c hm
        omega
    · rw [if_neg hp] at hc
      have := ih (i + 1) j c hc
      omega

lemma rowsAux_pairwise (hs : List Str) :
    ∀ (l : List Str) (i : Nat),
      (rowsAux hs i l).Pairwise (fun p q => p.1 < q.1) := by
  intro l
  induction l with
  | nil => intro i; exact List.Pairwise.nil
  | cons a t ih =>
    intro i
    unfold rowsAux
    by_cases hp : (decodeRow hs a).name ≠ [] ∧ (decodeRow hs a).reason ≠ []
    · rw [if_pos hp]
      refine List.Pairwise.cons ?_ (ih (i + 1))
      intro q hq
      have hge : i + 1 ≤ q.1 := rowsAux_mem_ge hs t (i + 1) q.1 q.2 hq
      omega
    · rw [if_neg hp]
      exact ih (i + 1)

lemma rowsAux_mem_iff (hs : List Str) :
    ∀ (l : List Str) (i j : Nat) (c : CompanyFormData),
      (j, c) ∈ rowsAux hs i l ↔
        ∃ k line, l.get? k = some line ∧ j = i + k ∧ c = decodeRow hs line ∧
          (decodeRow hs line).name ≠ [] ∧ (decodeRow hs line).reason ≠ [] := by
  intro l
  induction l with
  | nil =>
    intro i j c
    simp [rowsAux]
  | cons a t ih =>
    intro i j c
    unfold rowsAux
    by_cases hp : (decodeRow hs a).name ≠ [] ∧ (decodeRow hs a).reason ≠ []
    · rw [if_pos hp]
      constructor
      · intro hc
        rcases List.mem_cons.mp hc with he | hm
        · have hj : j = i := congrArg Prod.fst he
          have hcc : c = decodeRow hs a := congrArg Prod.snd he
          exact ⟨0, a, rfl, by omega, hcc, hp⟩
        · rcases (ih (i + 1) j c).mp hm with ⟨k, line, hget, hj, hcc, h1, h2⟩
          exact ⟨k + 1, line, hget, by omega, hcc, h1, h2⟩
      · rintro ⟨k, line, hget, hj, hcc, h1, h2⟩
        cases k with
        | zero =>
          have ha : a = line := Option.some.inj hget
          apply List.mem_cons.mpr
          left
          rw [← ha] at hcc
          rw [hcc]
          have hj0 : j = i := by omega
          rw [hj0]
        | succ k' =>
          apply List.mem_cons.mpr
          right
          exact (ih (i + 1) j c).mpr ⟨k', line, hget, by omega, hcc, h1, h2⟩
    · rw [if_neg hp]
      constructor
      · intro hm
        rcases (ih (i + 1) j c).mp hm with ⟨k, line, hget, hj, hcc, h1, h2⟩
        exact ⟨k + 1, line, hget, by omega, hcc, h1, h2⟩
      · rintro ⟨k, line, hget, hj, hcc, h1, h2⟩
        cases k with
        | zero =>
          have ha : a = line := Option.some.inj hget
          rw [← ha] at h1 h2
          exact absurd ⟨h1, h2⟩ hp
        | succ k' =>
          exact (ih (i + 1) j c).mpr ⟨k', line, hget, by omega, hcc, h1, h2⟩

/-- Claim C2: a data row (the k-th line after the header, source line k+1)
yields a record exactly when its decoded name and reason are both non-empty
(the decoded fields are comma-split cells already trimmed, so non-empty
post-trim coincides with non-empty); a failing row contributes nothing, and
every emitted record has non-empty name and reason. -/
theorem parse_admission_filter (s : Str) (k : Nat) (line : Str)
    (h : ((linesOf s).drop 1).get? k = some line) :
    ((k + 1, decodeRow (headersOf s) line) ∈ parseCSVRows s ↔
      (decodeRow (headersOf s) line).name ≠ [] ∧
        (decodeRow (headersOf s) line).reason ≠ []) ∧
    ∀ c ∈ parseCSV s, c.name ≠ [] ∧ c.reason ≠ [] := by
  constructor
  · show (k + 1, decodeRow (headersOf s) line) ∈
        rowsAux (headersOf s) 1 ((linesOf s).drop 1) ↔ _
    rw [rowsAux_mem_iff (headersOf s) ((linesOf s).drop 1) 1 (k + 1)
      (decodeRow (headersOf s) line)]
    constructor
    · rintro ⟨k', line', hget', hj, hcc, h1, h2⟩
      have hk : k' = k := by omega
      rw [hk, h] at hget'
      have hl : line = line' := Option.some.inj hget'
      rw [← hl] at h1 h2
      exact ⟨h1, h2⟩
    · rintro ⟨h1, h2⟩
      exact ⟨k, line, h, by omega, rfl, h1, h2⟩
  · intro c hc
    exact parseRows_mem_required (headersOf s) ((linesOf s).drop 1) c hc

/-- Witness for claim C2: under header `name,reason`, the data row `A,B`
(source line 1) is emitted. -/
theorem parse_admission_filter_witness :
    (0 + 1, decodeRow (headersOf (str "name,reason\nA,B")) (str "A,B")) ∈
      parseCSVRows (str "name,reason\nA,B") :=
  (parse_admission_filter (str "name,reason\nA,B") 0 (str "A,B")
      (by decide)).1.mpr (by decide)

/-- Claim C3: the boycott cell decodes to `true` exactly when its
lower-cased text is `true` or `yes`; in particular `TRUE`, `yes`, `Yes`
decode to `true` while the empty string, `no`, `false`, `maybe` decode to
`false`; and when no `boycott` column exists the field keeps its default
`false`. -/
theorem boycott_decode_spec :
    (∀ (values : List Str) (c : CompanyFormData) (i : Nat),
        ((applyHeader values c (str "boycott") i).boycott = true ↔
          (jsLower (cellValue values i) = str "true" ∨
            jsLower (cellValue values i) = str "yes"))) ∧
    ((applyHeader [str "TRUE"] initialCompany (str "boycott") 0).boycott = true ∧
      (applyHeader [str "yes"] initialCompany (str "boycott") 0).boycott = true ∧
      (applyHeader [str "Yes"] initialCompany (str "boycott") 0).boycott = true ∧
      (applyHeader [[]] initialCompany (str "boycott") 0).boycott = false ∧
      (applyHeader [str "no"] initialCompany (str "boycott") 0).boycott = false ∧
      (applyHeader [str "false"] initialCompany (str "boycott") 0).boycott = false ∧
      (applyHeader [str "maybe"] initialCompany (str "boycott") 0).boycott = false) ∧
    (∀ (headers : List Str) (line : Str), str "boycott" ∉ headers →
        (decodeRow headers line).boycott = false) := by
  refine ⟨?_, by decide, ?_⟩
  · intro values c i
    rw [applyHeader_boycott_eq]
    exact decide_eq_true_iff
  · intro headers line hmem
    exact applyHeaders_preserves_boycott ((jsSplit ',' line).map jsTrim)
      headers 0 initialCompany hmem

/-- Witness for claim C3: a header list without a boycott column leaves the
field `false`. -/
theorem boycott_decode_spec_witness :
    (decodeRow [str "name"] (str "x")).boycott = false :=
  boycott_decode_spec.2.2 [str "name"] (str "x") (by decide)

/-- Claim C5: the barcodes cell (and likewise the proofurls cell) decodes to
the semicolon-split tokens, each trimmed, with empty tokens dropped — the
explicit empty-cell guard of the source coincides with this formula; in
particular `111;222; 333 ` decodes to `[111, 222, 333]` and a trailing
semicolon adds no element. -/
theorem multivalue_split_spec :
    (∀ (values : List Str) (c : CompanyFormData) (i : Nat),
        (applyHeader values c (str "barcodes") i).barcodes =
          ((jsSplit ';' (cellValue values i)).map jsTrim).filter (fun t => !t.isEmpty)) ∧
    (∀ (values : List Str) (c : CompanyFormData) (i : Nat),
        (applyHeader values c (str "proofurls") i).proofUrls =
          ((jsSplit ';' (cellValue values i)).map jsTrim).filter (fun t => !t.isEmpty)) ∧
    splitTokens (str "111;222; 333 ") = [str "111", str "222", str "333"] ∧
    splitTokens (str "111;") = [str "111"] := by
  refine ⟨?_, ?_, by decide, by decide⟩
  · intro values c i
    rw [applyHeader_barcodes_eq]
    by_cases hv : cellValue values i = []
    · rw [if_pos hv, hv]
      rfl
    · rw [if_neg hv]
      rfl
  · intro values c i
    rw [applyHeader_proofurls_eq]
    by_cases hv : cellValue values i = []
    · rw [if_pos hv, hv]
      rfl
    · rw [if_neg hv]
      rfl

/-- Claim C6: the alternatives cell is split on semicolon into sub-fields,
each sub-field is colon-split into a name/countryCode/description triple
(description empty when the third colon-part is absent), and triples whose
name is empty after trimming are dropped; the source's empty-cell guard
coincides with this decoding when the record starts from its defaults; in
particular `Alt B:US` decodes to name `Alt B`, countryCode `US`, empty
description. -/
theorem alternatives_decode_spec :
    (∀ (values : List Str) (i : Nat),
        (applyHeader values initialCompany (str "alternatives") i).alternatives =
          parseAlternatives (cellValue values i)) ∧
    (∀ sub : Str, (jsSplit ':' (jsTrim sub)).length ≤ 2 →
        (parseAlt sub).description = []) ∧
    (parseAlt (str "Alt B:US") =
      { name := str "Alt B", countryCode := str "US", description := [] }) ∧
    (∀ (v : Str) (a : Alternative), a ∈ parseAlternatives v → a.name ≠ []) := by
  refine ⟨?_, ?_, by decide, ?_⟩
  · intro values i
    rw [applyHeader_alternatives_eq]
    by_cases hv : cellValue values i = []
    · rw [if_pos hv, hv]
      rfl
    · rw [if_neg hv]
  · intro sub hlen
    show jsTrim ((jsSplit ':' (jsTrim sub)).getD 2 []) = []
    rw [List.getD_eq_default _ _ hlen]
    rfl
  · intro v a ha
    unfold parseAlternatives at ha
    have hf := (List.mem_filter.mp ha).2
    intro he
    rw [he] at hf
    exact absurd hf (by decide)

/-- Witness for claim C6: a colon-free sub-field has empty description, and
the triple decoded from `Alt B:US` has a non-empty name. -/
theorem alternatives_decode_spec_witness :
    (parseAlt (str "Alt C")).description = [] ∧
    ({ name := str "Alt B", countryCode := str "US", description := [] } : Alternative).name ≠ [] :=
  ⟨alternatives_decode_spec.2.1 (str "Alt C") (by decide),
    alternatives_decode_spec.2.2.2 (str "Alt B:US")
      { name := str "Alt B", countryCode := str "US", description := [] } (by decide)⟩

/-- Claim C7, counterexample: emitted records carry no row number.  The
record decoded from the data line `A,B` is structurally identical whether
that line is source line 1 (input `name,reason\nA,B`) or source line 2
(input `name,reason\n,\nA,B`, whose first data row is dropped), so no
function of an emitted record can return its 1-indexed source line. -/
theorem row_number_counterexample :
    ¬ ∃ row : CompanyFormData → Nat,
        ∀ (s : Str) (j : Nat) (c : CompanyFormData),
          (j, c) ∈ parseCSVRows s → row c = j := by
  rintro ⟨row, hrow⟩
  have h1 := hrow (str "name,reason\nA,B") 1 recordAB (by decide)
  have h2 := hrow (str "name,reason\n,\nA,B") 2 recordAB (by decide)
  omega

/-- Claim C7, amended: the records `parseCSV` returns appear in the same
relative order as their source rows — the output equals the instrumented
parse stripped of its row indices, and those 1-indexed source line indices
are strictly increasing along the output.  The records themselves carry no
row number, and after a dropped row a record's output position no longer
equals its 1-indexed source line. -/
theorem parse_row_order (s : Str) :
    parseCSV s = (parseCSVRows s).map Prod.snd ∧
    ((parseCSVRows s).map Prod.fst).Pairwise (fun a b => a < b) := by
  constructor
  · exact parseRows_eq_rowsAux (headersOf s) ((linesOf s).drop 1) 1
  · exact List.pairwise_map.mpr
      (rowsAux_pairwise (headersOf s) ((linesOf s).drop 1) 1)

/-- Claim C9: `parseCSV` is total — a missing cell (row shorter than the
header) decodes as the empty string, the one unguarded indexing of the
source (`lines[0]`) is safe because splitting always returns at least one
segment, and malformed rows can only shrink the output (no exception is
representable: the embedding is a total function). -/
theorem parse_total_spec :
    (∀ (values : List Str) (i : Nat), values.length ≤ i → cellValue values i = []) ∧
    (∀ (sep : Char) (s : Str), jsSplit sep s ≠ []) ∧
    (∀ s : Str, (parseCSV s).length ≤ ((linesOf s).drop 1).length) := by
  refine ⟨?_, jsSplit_ne_nil, ?_⟩
  · intro values i hlen
    exact List.getD_eq_default _ _ hlen
  · intro s
    exact parseRows_length_le (headersOf s) ((linesOf s).drop 1)

/-- Witness for claim C9: reading column 5 of a one-cell row yields the
empty string. -/
theorem parse_total_spec_witness : cellValue [str "a"] 5 = [] :=
  parse_total_spec.1 [str "a"] 5 (by decide)

/-- Claim C10: an alternatives sub-field decodes to exactly
(first colon-part trimmed, second colon-part trimmed or `GLOBAL` when
absent or blank, third colon-part trimmed or empty when absent); colon-parts
past the third are discarded (the decode depends only on the first three
parts); in particular the colon-free sub-field `Alt C` decodes to name
`Alt C`, countryCode `GLOBAL`, empty description. -/
theorem alt_triple_decode_spec :
    (∀ sub : Str,
        parseAlt sub =
          { name := jsTrim ((jsSplit ':' (jsTrim sub)).getD 0 [])
          , countryCode :=
              jsOr (jsTrim ((jsSplit ':' (jsTrim sub)).getD 1 [])) (str "GLOBAL")
          , description := jsTrim ((jsSplit ':' (jsTrim sub)).getD 2 []) }) ∧
    (∀ sub sub' : Str,
        (jsSplit ':' (jsTrim sub)).take 3 = (jsSplit ':' (jsTrim sub')).take 3 →
          parseAlt sub = parseAlt sub') ∧
    parseAlt (str "Alt C") =
      { name := str "Alt C", countryCode := str "GLOBAL", description := [] } := by
  refine ⟨fun sub => rfl, ?_, by decide⟩
  intro sub sub' hts
  have h0 : (jsSplit ':' (jsTrim sub)).getD 0 [] = (jsSplit ':' (jsTrim sub')).getD 0 [] := by
    rw [← getD_take_eq 3 0 (jsSplit ':' (jsTrim sub)) (by omega),
      ← getD_take_eq 3 0 (jsSplit ':' (jsTrim sub')) (by omega), hts]
  have h1 : (jsSplit ':' (jsTrim sub)).getD 1 [] = (jsSplit ':' (jsTrim sub')).getD 1 [] := by
    rw [← getD_take_eq 3 1 (jsSplit ':' (jsTrim sub)) (by omega),
      ← getD_take_eq 3 1 (jsSplit ':' (jsTrim sub')) (by omega), hts]
  have h2 : (jsSplit ':' (jsTrim sub)).getD 2 [] = (jsSplit ':' (jsTrim sub')).getD 2 [] := by
    rw [← getD_take_eq 3 2 (jsSplit ':' (jsTrim sub)) (by omega),
      ← getD_take_eq 3 2 (jsSplit ':' (jsTrim sub')) (by omega), hts]
  have e : ∀ t : Str,
      parseAlt t =
        { name := jsTrim ((jsSplit ':' (jsTrim t)).getD 0 [])
        , countryCode := jsOr (jsTrim ((jsSplit ':' (jsTrim t)).getD 1 [])) (str "GLOBAL")
        , description := jsTrim ((jsSplit ':' (jsTrim t)).getD 2 []) } := fun t => rfl
  rw [e sub, e sub', h0, h1, h2]

/-- Witness for claim C10: two sub-fields agreeing on their first three
colon-parts decode to the same triple. -/
theorem alt_triple_decode_spec_witness :
    parseAlt (str "a:b:c:d") = parseAlt (str "a:b:c:zzz") :=
  alt_triple_decode_spec.2.1 (str "a:b:c:d") (str "a:b:c:zzz") (by decide)

end BoycottCSV
